import Mathlib

/-!
Verification development for the mcp-proxy request gateway.

The definitions below are a shallow embedding of the Go sources:
the JSON-RPC parser and router (internal/router), the SSE message
endpoint (internal/transport/sse/handler.go), the policy engine and
its decision cache (internal/policy), the session manager
(internal/session) and the upstream client (internal/upstream).
Machine-level concerns (goroutines, locks, wall-clock time, random
ids) are made explicit: time is a `Nat` parameter, generated ids and
timestamps are `String` parameters, callbacks are pure functions, and
external library calls (JSON decoding) are represented by the decoded
views the Go code actually consumes.
-/

set_option maxRecDepth 4096

namespace MCP

/-! ## JSON-RPC data model (internal/router/types.go) -/

/-- A JSON-RPC id value: a string or a number.  Go stores the decoded id
as `interface\x7b\x7d`; absent and `null` ids both decode to `nil`,
modelled as `Option RpcId = none` at use sites. -/
inductive RpcId where
  | str (s : String)
  | num (n : Int)
deriving DecidableEq, Repr

/-- Decoded views of a request's raw `params` payload.  The router
unmarshals the same raw bytes into `ToolCallParams` (field `name`),
`ResourceReadParams` (field `uri`) and a generic map for `_meta`;
`invalid` stands for a payload those unmarshalers reject.  A missing
string field decodes to `""` in Go, so `name`/`uri` carry `""` for
absent fields, and `agentFacts` is the `_meta.agentfacts` token when a
`_meta` object is present. -/
inductive ParamsView where
  | invalid
  | fields (name : String) (uri : String) (agentFacts : Option String)
      (args : Option (List (String × String)))
deriving DecidableEq, Repr

/-- An inbound message, as seen after the external JSON decoder ran:
empty input, input the decoder rejects, or a decoded envelope. -/
inductive InMsg where
  | empty
  | malformed
  | obj (jsonrpc : String) (id : Option RpcId) (method : String)
      (params : Option ParamsView)
deriving DecidableEq, Repr

def CodeParseError : Int := -32700
def CodeInvalidRequest : Int := -32600
def CodeMethodNotFound : Int := -32601
def CodeInvalidParams : Int := -32602
def CodeInternalError : Int := -32603
def CodePolicyViolation : Int := -32001
def CodeIdentityError : Int := -32002
def CodeRateLimited : Int := -32003
def CodeUpstreamError : Int := -32004

/-- `ParseError` of the router: a JSON-RPC error code plus message. -/
structure ParseErr where
  code : Int
  message : String
deriving DecidableEq, Repr

/-- The `Request` struct after `Parse` succeeded. -/
structure Request where
  jsonrpc : String
  id : Option RpcId
  method : String
  params : Option ParamsView
deriving DecidableEq, Repr

/-- `methodPattern` of parser.go: regexp `[a-zA-Z][a-zA-Z0-9_/]*`
anchored at both ends. -/
def methodPatternMatch (m : String) : Bool :=
  match m.data with
  | [] => false
  | c :: cs => c.isAlpha && cs.all (fun d => d.isAlpha || d.isDigit || d = '_' || d = '/')

/-- `Parser.Parse` of parser.go: reject empty input (−32700), decoder
failure (−32700), a `jsonrpc` field other than `"2.0"` (−32600), and a
missing, over-long (more than 256 bytes), ill-formed or `rpc.`-reserved
method (−32600). -/
def parserParse : InMsg → Except ParseErr Request
  | .empty => .error ⟨CodeParseError, "Empty message"⟩
  | .malformed => .error ⟨CodeParseError, "Invalid JSON"⟩
  | .obj jsonrpc id method params =>
    if jsonrpc ≠ "2.0" then
      .error ⟨CodeInvalidRequest, "Invalid JSON-RPC version"⟩
    else if method = "" then
      .error ⟨CodeInvalidRequest, "Missing method field"⟩
    else if method.utf8ByteSize > 256 then
      .error ⟨CodeInvalidRequest, "Method name too long"⟩
    else if ¬ methodPatternMatch method then
      .error ⟨CodeInvalidRequest, "Invalid method name format"⟩
    else if method.take 4 = "rpc." then
      .error ⟨CodeInvalidRequest, "Reserved method name"⟩
    else
      .ok ⟨jsonrpc, id, method, params⟩

/-- `HandlerType` of types.go. -/
inductive HandlerType where
  | passthrough
  | fullEnforce
  | filter
deriving DecidableEq, Repr

/-- `LogLevel` of types.go. -/
inductive LogLevel where
  | logNone
  | logMetadata
  | logFull
deriving DecidableEq, Repr

/-- `MethodConfig` of types.go (the informational `Description` field
is omitted). -/
structure MethodConfig where
  handler : HandlerType
  logLevel : LogLevel
deriving DecidableEq, Repr

/-- `MethodRegistry` of types.go, as a lookup function. -/
def methodRegistry (m : String) : Option MethodConfig :=
  if m = "tools/call" then some ⟨.fullEnforce, .logFull⟩
  else if m = "tools/list" then some ⟨.filter, .logMetadata⟩
  else if m = "resources/read" then some ⟨.fullEnforce, .logFull⟩
  else if m = "resources/list" then some ⟨.filter, .logMetadata⟩
  else if m = "resources/subscribe" then some ⟨.fullEnforce, .logFull⟩
  else if m = "prompts/get" then some ⟨.passthrough, .logMetadata⟩
  else if m = "prompts/list" then some ⟨.passthrough, .logMetadata⟩
  else if m = "initialize" then some ⟨.passthrough, .logMetadata⟩
  else if m = "ping" then some ⟨.passthrough, .logNone⟩
  else if m = "notifications/initialized" then some ⟨.passthrough, .logNone⟩
  else if m = "notifications/cancelled" then some ⟨.passthrough, .logMetadata⟩
  else none

/-- `RequestContext` of types.go. -/
structure ReqCtx where
  request : Request
  requestID : String
  method : String
  tool : String
  resourceURI : String
  arguments : Option (List (String × String))
  config : MethodConfig
  agentFactsToken : String
deriving DecidableEq, Repr

/-- `NewRequestContextAt`: fresh context with the generated request id
and the registry entry for the method (unknown methods default to
passthrough with metadata logging). -/
def newRequestContext (req : Request) (reqId : String) : ReqCtx :=
  { request := req
    requestID := reqId
    method := req.method
    tool := ""
    resourceURI := ""
    arguments := none
    config := (methodRegistry req.method).getD ⟨.passthrough, .logMetadata⟩
    agentFactsToken := "" }

/-- `Router.extractRequestDetails`: parses `tools/call` and
`resources/read` params into the context; other methods pass through. -/
def extractRequestDetails (req : Request) (ctx : ReqCtx) : Except ParseErr ReqCtx :=
  if req.method = "tools/call" then
    match req.params with
    | none => .error ⟨CodeInvalidParams, "Missing params for tools/call"⟩
    | some .invalid => .error ⟨CodeInvalidParams, "Invalid tools/call params"⟩
    | some (.fields name _ meta args) =>
      if name = "" then .error ⟨CodeInvalidParams, "Missing name in tools/call params"⟩
      else .ok { ctx with
                  tool := name
                  arguments := args
                  agentFactsToken := match meta with
                    | some t => t
                    | none => ctx.agentFactsToken }
  else if req.method = "resources/read" then
    match req.params with
    | none => .error ⟨CodeInvalidParams, "Missing params for resources/read"⟩
    | some .invalid => .error ⟨CodeInvalidParams, "Invalid resources/read params"⟩
    | some (.fields _ uri meta _) =>
      if uri = "" then .error ⟨CodeInvalidParams, "Missing uri in resources/read params"⟩
      else .ok { ctx with
                  resourceURI := uri
                  agentFactsToken := match meta with
                    | some t => t
                    | none => ctx.agentFactsToken }
  else .ok ctx

/-- The `ExtractMeta` step of `Route`: when the params carry a `_meta`
object, its `agentfacts` token overwrites the context's token. -/
def applyMeta (req : Request) (ctx : ReqCtx) : ReqCtx :=
  match req.params with
  | some (.fields _ _ (some t) _) => { ctx with agentFactsToken := t }
  | _ => ctx

/-! ## Response builder (ResponseBuilder, part of the router package) -/

/-- `PolicyViolationData` of types.go (the unused
`RequiredCapability` field is omitted). -/
structure PolicyViolationData where
  requestID : String
  agentID : String
  tool : String
  agentCapabilities : List String
  violations : List String
  policyMode : String
  timestamp : String
deriving DecidableEq, Repr

/-- Structured `data` payloads attached to error replies by the
router. -/
inductive ErrData where
  | policy (d : PolicyViolationData)
deriving DecidableEq, Repr

/-- JSON-RPC error object. -/
structure ErrObj where
  code : Int
  message : String
  data : Option ErrData
deriving DecidableEq, Repr

/-- JSON-RPC response envelope as built by the router (the router's own
replies are always error replies; successful traffic is forwarded
upstream bytes, never a locally built `Result`). -/
structure Response where
  id : Option RpcId
  error : Option ErrObj
deriving DecidableEq, Repr

/-- `ResponseBuilder.Error`. -/
def mkError (id : Option RpcId) (code : Int) (message : String) : Response :=
  ⟨id, some ⟨code, message, none⟩⟩

/-- `ResponseBuilder.FromParseError`. -/
def fromParseError (pe : ParseErr) (id : Option RpcId) : Response :=
  mkError id pe.code pe.message

/-- `ResponseBuilder.InternalError`. -/
def internalError (id : Option RpcId) (message : String) : Response :=
  mkError id CodeInternalError message

/-- `ResponseBuilder.UpstreamError`. -/
def upstreamError (id : Option RpcId) (message : String) : Response :=
  mkError id CodeUpstreamError message

/-- `PolicyDecision` of router.go. -/
structure PolicyDecision where
  allow : Bool
  violations : List String
  matchedRule : String
  policyMode : String
deriving DecidableEq, Repr

/-- `ResponseBuilder.PolicyViolation`: −32001 with structured data; the
user-visible message is the first violation when present, else the
literal `"Policy violation"`. -/
def policyViolation (id : Option RpcId) (ctx : ReqCtx) (agentID : String)
    (capabilities : List String) (violations : List String)
    (policyMode : String) (now : String) : Response :=
  let data : PolicyViolationData :=
    ⟨ctx.requestID, agentID, ctx.tool, capabilities, violations, policyMode, now⟩
  let message := match violations with
    | v :: _ => v
    | [] => "Policy violation"
  ⟨id, some ⟨CodePolicyViolation, message, some (.policy data)⟩⟩

/-! ## Router state machine (Router.Route) -/

/-- The slice of session state the router reads. -/
structure Sess where
  agentID : String
  capabilities : List String
deriving DecidableEq, Repr

/-- Router configuration: the three optional callbacks.  The policy
evaluator and upstream sender are pure functions (`Except` models the
Go error return); for the audit logger only its presence matters, the
call itself is recorded in `Effects`. -/
structure RouterCfg where
  policyEvaluator : Option (Sess → ReqCtx → Except String PolicyDecision)
  upstreamSender : Option (InMsg → Except String String)
  auditLogger : Bool

/-- The bytes `Route` returns: upstream bytes, the echoed original
message (no upstream configured), or a marshalled locally-built
response.  Go's `nil` byte slice is `none` at the use site. -/
inductive RouteOut where
  | fwd (bytes : String)
  | echo (msg : InMsg)
  | reply (r : Response)
deriving DecidableEq, Repr

/-- Which callbacks a `Route` invocation fired.  `audited = some d`
means the audit logger ran and received decision `d` (which is `none`
when the Go code passes a nil decision). -/
structure Effects where
  policyCalled : Bool
  upstreamCalled : Bool
  audited : Option (Option PolicyDecision)
deriving DecidableEq, Repr

/-- Result of one `Route` call: the returned bytes, the returned error,
and the observed callback effects. -/
structure RouteResult where
  response : Option RouteOut
  err : Option String
  effects : Effects
deriving DecidableEq, Repr

/-- Intermediate result of one handler (`handlePassthrough`,
`handleEnforce`, `handleFilter`). -/
structure HandlerRes where
  response : Option RouteOut
  decision : Option PolicyDecision
  err : Option String
  policyCalled : Bool
  upstreamCalled : Bool

/-- `Router.handlePassthrough`: forward without policy check; echo when
no upstream is configured; upstream error propagates with nil bytes. -/
def handlePassthrough (cfg : RouterCfg) (msg : InMsg) : HandlerRes :=
  match cfg.upstreamSender with
  | some f =>
    match f msg with
    | .ok s => ⟨some (.fwd s), none, none, false, true⟩
    | .error e => ⟨none, none, some e, false, true⟩
  | none => ⟨some (.echo msg), none, none, false, false⟩

/-- The forwarding tail of `Router.handleEnforce`: upstream errors are
converted to a −32004 reply, no upstream means echo. -/
def enforceForward (cfg : RouterCfg) (ctx : ReqCtx) (msg : InMsg)
    (decision : PolicyDecision) (policyCalled : Bool) : HandlerRes :=
  match cfg.upstreamSender with
  | some f =>
    match f msg with
    | .ok s => ⟨some (.fwd s), some decision, none, policyCalled, true⟩
    | .error e =>
      ⟨some (.reply (upstreamError ctx.request.id e)), some decision, none, policyCalled, true⟩
  | none => ⟨some (.echo msg), some decision, none, policyCalled, false⟩

/-- `Router.handleEnforce`: evaluate policy when an evaluator is set
(evaluator error ⇒ −32603 reply with nil decision; deny in enforce mode
⇒ −32001 policy-violation reply without forwarding; otherwise forward).
With no evaluator a default-allow decision
`(Allow, PolicyMode "disabled", MatchedRule "no_policy")` is
synthesized and the request is forwarded. -/
def handleEnforce (cfg : RouterCfg) (sess : Sess) (ctx : ReqCtx) (msg : InMsg)
    (now : String) : HandlerRes :=
  match cfg.policyEvaluator with
  | some eval =>
    match eval sess ctx with
    | .error _ =>
      ⟨some (.reply (internalError ctx.request.id "Policy evaluation failed")),
        none, none, true, false⟩
    | .ok decision =>
      if ¬ decision.allow ∧ decision.policyMode = "enforce" then
        ⟨some (.reply (policyViolation ctx.request.id ctx sess.agentID
            sess.capabilities decision.violations decision.policyMode now)),
          some decision, none, true, false⟩
      else
        enforceForward cfg ctx msg decision true
  | none =>
    enforceForward cfg ctx msg ⟨true, [], "no_policy", "disabled"⟩ false

/-- `Router.handleFilter`: currently a pass-through with a synthesized
filter decision; upstream errors propagate with nil bytes. -/
def handleFilter (cfg : RouterCfg) (msg : InMsg) : HandlerRes :=
  let decision : PolicyDecision := ⟨true, [], "passthrough", "filter"⟩
  match cfg.upstreamSender with
  | some f =>
    match f msg with
    | .ok s => ⟨some (.fwd s), some decision, none, false, true⟩
    | .error e => ⟨none, some decision, some e, false, true⟩
  | none => ⟨some (.echo msg), some decision, none, false, false⟩

/-- The parse-and-classify phase of `Route`: `Parse`, context creation,
`extractRequestDetails` (whose `ParseError` is replied with the parsed
request's id) and the `ExtractMeta` overwrite. -/
def prepare (msg : InMsg) (reqId : String) : Except (ParseErr × Option RpcId) ReqCtx :=
  match parserParse msg with
  | .error pe => .error (pe, none)
  | .ok req =>
    match extractRequestDetails req (newRequestContext req reqId) with
    | .error pe => .error (pe, req.id)
    | .ok ctx => .ok (applyMeta req ctx)

/-- `Router.Route` (router.go).  `reqId` is the generated request id
and `now` the timestamp string, both made explicit parameters.  Parse
and extraction errors return a marshalled error reply before any
callback runs; otherwise the method's handler runs and the audit logger
fires iff it is set and the method's log level is not `LogNone`. -/
def route (cfg : RouterCfg) (sess : Sess) (msg : InMsg) (reqId now : String) :
    RouteResult :=
  match prepare msg reqId with
  | .error (pe, id) =>
    ⟨some (.reply (fromParseError pe id)), none, ⟨false, false, none⟩⟩
  | .ok ctx =>
    let hres :=
      match ctx.config.handler with
      | .passthrough => handlePassthrough cfg msg
      | .fullEnforce => handleEnforce cfg sess ctx msg now
      | .filter => handleFilter cfg msg
    let audited :=
      if cfg.auditLogger ∧ ctx.config.logLevel ≠ .logNone then some hres.decision
      else none
    ⟨hres.response, hres.err, ⟨hres.policyCalled, hres.upstreamCalled, audited⟩⟩

/-! ## Router theorems -/

/-- A router with no callbacks configured (fresh `NewRouter()`). -/
def noCallbacksCfg : RouterCfg := ⟨none, none, false⟩

/-- A session as the transports create it. -/
def demoSess : Sess := ⟨"agent-a", ["read:files"]⟩

/-- A notification: valid envelope with no id. -/
def notifMsg : InMsg := .obj "2.0" none "notifications/initialized" none

/-- A router with only an upstream configured, which replies `UP`. -/
def upstreamOnlyCfg : RouterCfg := ⟨none, some (fun _ => .ok "UP"), false⟩

/-- Claim C1 (code bug): the spec requires that `Route` produce no
outbound reply for a notification (absent/null id), but the routing
code never consults the id.  Evaluating `Route` on the notification
`jsonrpc 2.0, method notifications/initialized, no id` returns the
echoed message when no upstream is configured, and the upstream's
reply bytes when one is — a non-nil reply that the transport then
delivers to the client in both cases. -/
theorem route_notification_gets_reply :
    (route noCallbacksCfg demoSess notifMsg "req_0" "t0").response
        = some (.echo notifMsg)
      ∧ (route noCallbacksCfg demoSess notifMsg "req_0" "t0").response ≠ none
      ∧ (route upstreamOnlyCfg demoSess notifMsg "req_0" "t0").response
        = some (.fwd "UP") := by
  decide

/-- Claim C6: when parsing fails (empty input, invalid JSON, wrong
jsonrpc version, or an invalid method), `Route` returns a terminal
JSON-RPC error reply carrying the parse error's code and a null id,
and fires none of the callbacks: no policy evaluation, no upstream
call, no audit row — for every router configuration. -/
theorem route_parse_error_is_terminal (cfg : RouterCfg) (sess : Sess) (msg : InMsg)
    (reqId now : String) (pe : ParseErr) (h : parserParse msg = .error pe) :
    route cfg sess msg reqId now =
      ⟨some (.reply ⟨none, some ⟨pe.code, pe.message, none⟩⟩), none,
        ⟨false, false, none⟩⟩ := by
  simp [route, prepare, h, fromParseError, mkError]

/-- Witness for C6 at the concrete malformed input. -/
theorem route_parse_error_is_terminal_witness :
    route noCallbacksCfg demoSess .malformed "r0" "t0" =
      ⟨some (.reply ⟨none, some ⟨CodeParseError, "Invalid JSON", none⟩⟩), none,
        ⟨false, false, none⟩⟩ :=
  route_parse_error_is_terminal noCallbacksCfg demoSess .malformed "r0" "t0"
    ⟨CodeParseError, "Invalid JSON"⟩ rfl

/-- Claim C2: for a request classified as Enforce whose policy decision
is deny in enforce mode, the upstream sender is never invoked and the
reply is the −32001 policy-violation error: its `data.violations` is
the decision's violations in order, and its message is the first
violation when one exists, else the literal `"Policy violation"`. -/
theorem route_enforce_deny_blocks (cfg : RouterCfg) (sess : Sess) (msg : InMsg)
    (reqId now : String) (ctx : ReqCtx)
    (evalFn : Sess → ReqCtx → Except String PolicyDecision) (d : PolicyDecision)
    (hprep : prepare msg reqId = .ok ctx)
    (hh : ctx.config.handler = .fullEnforce)
    (hev : cfg.policyEvaluator = some evalFn)
    (hd : evalFn sess ctx = .ok d)
    (hallow : d.allow = false)
    (hmode : d.policyMode = "enforce") :
    route cfg sess msg reqId now =
      ⟨some (.reply ⟨ctx.request.id, some ⟨CodePolicyViolation,
          (match d.violations with | v :: _ => v | [] => "Policy violation"),
          some (.policy ⟨ctx.requestID, sess.agentID, ctx.tool, sess.capabilities,
              d.violations, d.policyMode, now⟩)⟩⟩),
        none,
        ⟨true, false,
          if cfg.auditLogger ∧ ctx.config.logLevel ≠ .logNone
          then some (some d) else none⟩⟩ := by
  simp [route, hprep, hh, handleEnforce, hev, hd, hallow, hmode, policyViolation]

/-- The decision used in the C2 witness. -/
def w2d : PolicyDecision :=
  ⟨false, ["violation one", "violation two"], "missing_capability", "enforce"⟩

/-- Router configuration for the C2 witness: denying evaluator,
upstream configured, audit configured. -/
def w2cfg : RouterCfg := ⟨some (fun _ _ => .ok w2d), some (fun _ => .ok "UPSTREAM"), true⟩

/-- The `tools/call` request of the C2 witness. -/
def w2msg : InMsg :=
  .obj "2.0" (some (.num 1)) "tools/call" (some (.fields "read_file" "" none none))

/-- The prepared request context of the C2 witness. -/
def w2ctx : ReqCtx :=
  { request := ⟨"2.0", some (.num 1), "tools/call", some (.fields "read_file" "" none none)⟩
    requestID := "rid0"
    method := "tools/call"
    tool := "read_file"
    resourceURI := ""
    arguments := none
    config := ⟨.fullEnforce, .logFull⟩
    agentFactsToken := "" }

/-- Witness for C2: a denied `tools/call` in enforce mode. -/
theorem route_enforce_deny_blocks_witness :
    route w2cfg demoSess w2msg "rid0" "ts0" =
      ⟨some (.reply ⟨some (.num 1), some ⟨CodePolicyViolation, "violation one",
          some (.policy ⟨"rid0", "agent-a", "read_file", ["read:files"],
              ["violation one", "violation two"], "enforce", "ts0"⟩)⟩⟩),
        none, ⟨true, false, some (some w2d)⟩⟩ := by
  simpa using route_enforce_deny_blocks w2cfg demoSess w2msg "rid0" "ts0" w2ctx
    (fun _ _ => .ok w2d) w2d rfl rfl rfl rfl rfl rfl

/-- Claim C10: with no policy evaluator configured, an Enforce-class
request fails open — it is forwarded to upstream (or echoed with no
upstream), and the audit callback (when configured for the method)
receives the synthesized allow decision
`(Allow, PolicyMode "disabled", MatchedRule "no_policy")`. -/
theorem route_enforce_no_evaluator_fails_open (cfg : RouterCfg) (sess : Sess)
    (msg : InMsg) (reqId now : String) (ctx : ReqCtx)
    (hprep : prepare msg reqId = .ok ctx)
    (hh : ctx.config.handler = .fullEnforce)
    (hev : cfg.policyEvaluator = none) :
    route cfg sess msg reqId now =
      ⟨(match cfg.upstreamSender with
        | some f =>
          match f msg with
          | .ok s => some (.fwd s)
          | .error e => some (.reply (upstreamError ctx.request.id e))
        | none => some (.echo msg)),
        none,
        ⟨false, cfg.upstreamSender.isSome,
          if cfg.auditLogger ∧ ctx.config.logLevel ≠ .logNone
          then some (some ⟨true, [], "no_policy", "disabled"⟩) else none⟩⟩ := by
  cases hup : cfg.upstreamSender with
  | none => simp [route, hprep, hh, handleEnforce, hev, enforceForward, hup]
  | some f =>
    cases hf : f msg with
    | ok s => simp [route, hprep, hh, handleEnforce, hev, enforceForward, hup, hf]
    | error e => simp [route, hprep, hh, handleEnforce, hev, enforceForward, hup, hf]

/-- The `resources/read` request of the C10 witness. -/
def w10msg : InMsg :=
  .obj "2.0" (some (.str "x")) "resources/read"
    (some (.fields "" "file:///a.txt" none none))

/-- Router configuration for the C10 witness: no evaluator, no
upstream, audit configured. -/
def w10cfg : RouterCfg := ⟨none, none, true⟩

/-- The prepared request context of the C10 witness. -/
def w10ctx : ReqCtx :=
  { request := ⟨"2.0", some (.str "x"), "resources/read",
      some (.fields "" "file:///a.txt" none none)⟩
    requestID := "rid1"
    method := "resources/read"
    tool := ""
    resourceURI := "file:///a.txt"
    arguments := none
    config := ⟨.fullEnforce, .logFull⟩
    agentFactsToken := "" }

/-- Witness for C10: `resources/read` with no evaluator is echoed and
audited with the synthesized allow decision. -/
theorem route_enforce_no_evaluator_fails_open_witness :
    route w10cfg demoSess w10msg "rid1" "ts1" =
      ⟨some (.echo w10msg), none,
        ⟨false, false, some (some ⟨true, [], "no_policy", "disabled"⟩)⟩⟩ := by
  simpa using route_enforce_no_evaluator_fails_open w10cfg demoSess w10msg "rid1" "ts1"
    w10ctx rfl rfl rfl

/-! ## SHA-256 (crypto/sha256 as used by the decision cache)

Bytes are `Nat` values below 256, 32-bit words are `Nat` values below
2^32 with arithmetic taken mod 2^32 explicitly. -/

def M32 : Nat := 4294967296

def add32 (a b : Nat) : Nat := (a + b) % M32

def rotr32 (n x : Nat) : Nat := (x >>> n) ||| ((x <<< (32 - n)) % M32)

def not32 (x : Nat) : Nat := x ^^^ (M32 - 1)

def bsig0 (x : Nat) : Nat := rotr32 2 x ^^^ rotr32 13 x ^^^ rotr32 22 x

def bsig1 (x : Nat) : Nat := rotr32 6 x ^^^ rotr32 11 x ^^^ rotr32 25 x

def ssig0 (x : Nat) : Nat := rotr32 7 x ^^^ rotr32 18 x ^^^ (x >>> 3)

def ssig1 (x : Nat) : Nat := rotr32 17 x ^^^ rotr32 19 x ^^^ (x >>> 10)

def ch32 (x y z : Nat) : Nat := (x &&& y) ^^^ (not32 x &&& z)

def maj32 (x y z : Nat) : Nat := (x &&& y) ^^^ (x &&& z) ^^^ (y &&& z)

/-- The 64 SHA-256 round constants (the fractional parts of the cube
roots of the first 64 primes), written in decimal. -/
def sha256K : List Nat :=
  [1116352408, 1899447441, 3049323471, 3921009573, 961987163,
   1508970993, 2453635748, 2870763221, 3624381080, 310598401,
   607225278, 1426881987, 1925078388, 2162078206, 2614888103,
   3248222580, 3835390401, 4022224774, 264347078, 604807628,
   770255983, 1249150122, 1555081692, 1996064986, 2554220882,
   2821834349, 2952996808, 3210313671, 3336571891, 3584528711,
   113926993, 338241895, 666307205, 773529912, 1294757372,
   1396182291, 1695183700, 1986661051, 2177026350, 2456956037,
   2730485921, 2820302411, 3259730800, 3345764771, 3516065817,
   3600352804, 4094571909, 275423344, 430227734, 506948616,
   659060556, 883997877, 958139571, 1322822218, 1537002063,
   1747873779, 1955562222, 2024104815, 2227730452, 2361852424,
   2428436474, 2756734187, 3204031479, 3329325298]

/-- The SHA-256 initial hash value (the fractional parts of the square
roots of the first 8 primes), written in decimal. -/
def sha256H0 : List Nat :=
  [1779033703, 3144134277, 1013904242, 2773480762, 1359893119,
   2600822924, 528734635, 1541459225]

/-- Big-endian byte encoding of `n` in `k` bytes. -/
def beBytes (k n : Nat) : List Nat :=
  (List.range k).reverse.map (fun i => (n >>> (8 * i)) % 256)

/-- Group a byte list into big-endian 32-bit words. -/
def toWords : List Nat → List Nat
  | b0 :: b1 :: b2 :: b3 :: rest =>
    (((b0 * 256 + b1) * 256 + b2) * 256 + b3) :: toWords rest
  | _ => []

/-- One message-schedule extension step: append
`ssig1 w[t-2] + w[t-7] + ssig0 w[t-15] + w[t-16]`. -/
def scheduleStep (w : List Nat) : List Nat :=
  let t := w.length
  w ++ [add32 (add32 (ssig1 (w.getD (t - 2) 0)) (w.getD (t - 7) 0))
          (add32 (ssig0 (w.getD (t - 15) 0)) (w.getD (t - 16) 0))]

/-- Iterate the schedule extension. -/
def extendSchedule : Nat → List Nat → List Nat
  | 0, w => w
  | n + 1, w => extendSchedule n (scheduleStep w)

/-- One SHA-256 compression round on state `[a,b,c,d,e,f,g,h]`. -/
def sha256Round (st : List Nat) (kt wt : Nat) : List Nat :=
  match st with
  | [a, b, c, d, e, f, g, h] =>
    let t1 := add32 h (add32 (bsig1 e) (add32 (ch32 e f g) (add32 kt wt)))
    let t2 := add32 (bsig0 a) (maj32 a b c)
    [add32 t1 t2, a, b, c, add32 d t1, e, f, g]
  | _ => st

/-- Compress one 64-byte block into the running hash. -/
def processBlock (h : List Nat) (block : List Nat) : List Nat :=
  let w := extendSchedule 48 (toWords block)
  let st := (sha256K.zip w).foldl (fun st p => sha256Round st p.1 p.2) h
  (h.zip st).map (fun p => add32 p.1 p.2)

/-- Split a byte list into 64-byte chunks (fuel-structured so that the
kernel can evaluate it; the fuel is the list length, enough since every
step consumes at least one element). -/
def chunks64Go : Nat → List Nat → List (List Nat)
  | 0, _ => []
  | _, [] => []
  | fuel + 1, l => l.take 64 :: chunks64Go fuel (l.drop 64)

/-- Split a byte list into 64-byte chunks. -/
def chunks64 (l : List Nat) : List (List Nat) :=
  chunks64Go l.length l

/-- SHA-256 over a byte list: pad to a multiple of 64 bytes with
`0x80`, zeros and the 64-bit big-endian bit length, then compress
block by block. -/
def sha256Bytes (msg : List Nat) : List Nat :=
  let padded := msg ++ 0x80 :: (List.replicate ((119 - msg.length % 64) % 64) 0
      ++ beBytes 8 (8 * msg.length))
  let final := (chunks64 padded).foldl processBlock sha256H0
  final.foldr (fun w acc => beBytes 4 w ++ acc) []

def hexDigit (n : Nat) : Char :=
  if n < 10 then Char.ofNat (48 + n) else Char.ofNat (87 + n)

def hexOfBytes (bs : List Nat) : String :=
  String.mk (bs.foldr (fun b acc => hexDigit (b / 16) :: hexDigit (b % 16) :: acc) [])

/-- UTF-8 encoding of one character (Go strings are UTF-8 byte
sequences). -/
def utf8Bytes (c : Char) : List Nat :=
  let n := c.toNat
  if n < 0x80 then [n]
  else if n < 0x800 then
    [0xC0 ||| (n >>> 6), 0x80 ||| (n &&& 0x3F)]
  else if n < 0x10000 then
    [0xE0 ||| (n >>> 12), 0x80 ||| ((n >>> 6) &&& 0x3F), 0x80 ||| (n &&& 0x3F)]
  else
    [0xF0 ||| (n >>> 18), 0x80 ||| ((n >>> 12) &&& 0x3F),
     0x80 ||| ((n >>> 6) &&& 0x3F), 0x80 ||| (n &&& 0x3F)]

/-- The UTF-8 bytes of a string. -/
def strBytes (s : String) : List Nat := s.data.flatMap utf8Bytes

/-- `hashString` of cache.go: hex-encoded SHA-256 of the string's
UTF-8 bytes. -/
def hashString (s : String) : String :=
  hexOfBytes (sha256Bytes (strBytes s))

/-- NIST test vector: SHA-256 of the empty byte sequence (the check is
stated on bytes; the hex digest of these bytes is the well-known
`e3b0c442...b855`). -/
theorem sha256Bytes_empty_vector :
    sha256Bytes [] =
      [0xe3, 0xb0, 0xc4, 0x42, 0x98, 0xfc, 0x1c, 0x14, 0x9a, 0xfb, 0xf4, 0xc8,
       0x99, 0x6f, 0xb9, 0x24, 0x27, 0xae, 0x41, 0xe4, 0x64, 0x9b, 0x93, 0x4c,
       0xa4, 0x95, 0x99, 0x1b, 0x78, 0x52, 0xb8, 0x55] := by
  decide

/-! ## Policy engine (internal/policy) -/

/-- `sort.Strings` of the Go standard library: lexicographic sort; on
UTF-8 strings Go's byte order coincides with the codepoint order used
by `String`'s linear order. -/
def sortStrings (l : List String) : List String := l.mergeSort

/-- Sorting is invariant under permutation of the input. -/
theorem sortStrings_perm_eq {l1 l2 : List String} (h : l1.Perm l2) :
    sortStrings l1 = sortStrings l2 := by
  apply List.eq_of_perm_of_sorted (r := (· ≤ ·))
  · exact (List.mergeSort_perm l1 _).trans (h.trans (List.mergeSort_perm l2 _).symm)
  · exact List.sorted_mergeSort' l1
  · exact List.sorted_mergeSort' l2

namespace Policy

/-- `AgentContext` of the policy input. -/
structure AgentContext where
  id : String
  name : String
  capabilities : List String
  model : String
  publisher : String
  tags : List String
deriving DecidableEq, Repr

/-- `RequestContext` of the policy input. -/
structure RequestCtx where
  method : String
  tool : String
  arguments : List (String × String)
  intent : String
deriving DecidableEq, Repr

/-- `SessionContext` of the policy input. -/
structure SessionCtx where
  id : String
  requestCount : Nat
  startedAt : Nat
  cumulativeReads : Nat
  cumulativeWrites : Nat
deriving DecidableEq, Repr

/-- `IdentityContext` of the policy input. -/
structure IdentityCtx where
  verified : Bool
  did : String
  signatureAlg : String
  issuedAt : Nat
  hasLogProof : Bool
deriving DecidableEq, Repr

/-- `EnvironmentContext` of the policy input. -/
structure EnvCtx where
  timestamp : Nat
  sourceIP : String
  environment : String
  proxyRegion : String
deriving DecidableEq, Repr

/-- `PolicyInput` sent to the evaluator. -/
structure PolicyInput where
  agent : AgentContext
  request : RequestCtx
  session : SessionCtx
  identity : IdentityCtx
  context : EnvCtx
deriving DecidableEq, Repr

/-- A policy obligation. -/
structure Obligation where
  action : String
  params : List (String × String)
deriving DecidableEq, Repr

/-- `PolicyDecision` as produced by the engine. -/
structure Decision where
  allow : Bool
  violations : List String
  matchedRule : String
  obligations : List Obligation
deriving DecidableEq, Repr

/-- `DecisionCache.ComputeKey` of cache.go: copy and sort the agent's
capabilities, hash their comma-join, and key on
`agent_id : tool : first-8-hex-chars`. -/
def ComputeKey (input : PolicyInput) : String :=
  let caps := sortStrings input.agent.capabilities
  let capsHash := hashString (String.intercalate "," caps)
  input.agent.id ++ ":" ++ input.request.tool ++ ":" ++ capsHash.take 8

/-- The cache key exactly as the specification words it:
`agent_id ":" tool ":" first8(sha256(sorted_capabilities_joined_by_comma))`. -/
def specCacheKey (input : PolicyInput) : String :=
  input.agent.id ++ ":" ++ input.request.tool ++ ":"
    ++ (hashString (String.intercalate "," (sortStrings input.agent.capabilities))).take 8

/-- A cached decision with its wall-clock expiry. -/
structure CacheEntry where
  decision : Decision
  expiresAt : Nat
deriving DecidableEq, Repr

/-- `DecisionCache` state (metrics counters omitted). -/
structure CacheState where
  enabled : Bool
  ttl : Nat
  maxEntries : Nat
  entries : List (String × CacheEntry)
deriving DecidableEq, Repr

/-- `NewDecisionCache`: zero TTL defaults to 5 minutes, zero capacity
to 10000 entries. -/
def newDecisionCache (enabled : Bool) (ttl maxEntries : Nat) : CacheState :=
  { enabled := enabled
    ttl := if ttl = 0 then 300 else ttl
    maxEntries := if maxEntries = 0 then 10000 else maxEntries
    entries := [] }

/-- `DecisionCache.Get` at time `t`: a hit only when enabled, present
and strictly before expiry; the tier string is `"L2"`. -/
def cacheGet (c : CacheState) (t : Nat) (key : String) : Option (Decision × String) :=
  if ¬ c.enabled then none
  else
    match c.entries.lookup key with
    | some e => if t < e.expiresAt then some (e.decision, "L2") else none
    | none => none

/-- `DecisionCache.evictOldest`: drop expired entries, then (still at
capacity) any tenth of the entries — the Go map iteration order is
arbitrary, modelled as dropping from the front. -/
def evictOldest (t maxEntries : Nat) (entries : List (String × CacheEntry)) :
    List (String × CacheEntry) :=
  let kept := entries.filter (fun p => ¬ p.2.expiresAt < t)
  if maxEntries ≤ kept.length then kept.drop (maxEntries / 10) else kept

/-- `DecisionCache.Set` at time `t`: no-op when disabled; evict at
capacity, then store the decision under `key` with expiry `t + ttl`. -/
def cacheSet (c : CacheState) (t : Nat) (key : String) (d : Decision) : CacheState :=
  if ¬ c.enabled then c
  else
    let entries :=
      if c.maxEntries ≤ c.entries.length then evictOldest t c.maxEntries c.entries
      else c.entries
    { c with entries := (key, ⟨d, t + c.ttl⟩) :: entries.filter (fun p => p.1 ≠ key) }

/-- `DecisionCache.Invalidate`: clear all entries (when enabled). -/
def cacheInvalidate (c : CacheState) : CacheState :=
  if ¬ c.enabled then c else { c with entries := [] }

/-- Engine state: enabled flag, mode and the decision cache.  The
compiled query is external; it enters `engineEvaluate` as the pure
function `opa`. -/
structure EngineState where
  enabled : Bool
  mode : String
  cache : CacheState
deriving DecidableEq, Repr

/-- `EvaluationResult` (the measured `EvalTime` is omitted). -/
structure EvaluationResult where
  decision : Decision
  cacheHit : Bool
  cacheTier : String
  policyMode : String
  input : PolicyInput
deriving DecidableEq, Repr

/-- The normalized decision when the query returns no result. -/
def noResultDecision : Decision :=
  ⟨false, ["No policy decision returned"], "no_result", []⟩

/-- `Engine.evaluatePolicy`: run the compiled query; an empty result
set is normalized to the `no_result` deny decision. -/
def evaluatePolicy (opa : PolicyInput → Except String (Option Decision))
    (input : PolicyInput) : Except String Decision :=
  match opa input with
  | .error e => .error e
  | .ok none => .ok noResultDecision
  | .ok (some d) => .ok d

/-- `Engine.Evaluate` at time `t`: disabled engines allow immediately
with `policy_disabled`; otherwise consult the cache under `ComputeKey`,
and on a miss evaluate and store the fresh decision. -/
def engineEvaluate (opa : PolicyInput → Except String (Option Decision))
    (st : EngineState) (t : Nat) (input : PolicyInput) :
    Except String (EvaluationResult × EngineState) :=
  if ¬ st.enabled then
    .ok (⟨⟨true, [], "policy_disabled", []⟩, false, "", st.mode, input⟩, st)
  else
    let key := ComputeKey input
    match cacheGet st.cache t key with
    | some (d, tier) => .ok (⟨d, true, tier, st.mode, input⟩, st)
    | none =>
      match evaluatePolicy opa input with
      | .error e => .error e
      | .ok d =>
        .ok (⟨d, false, "", st.mode, input⟩, { st with cache := cacheSet st.cache t key d })

/-- `Engine.SetPolicyData`: replaces the data document and invalidates
the decision cache (recompilation is inside the external query). -/
def setPolicyData (st : EngineState) : EngineState :=
  { st with cache := cacheInvalidate st.cache }

end Policy

/-! ## Policy engine theorems -/

/-- Claim C8: for every policy input, the decision cache key equals
`agent_id ":" tool ":" first8(sha256(sorted_capabilities_joined_by_comma))`,
with the hash hex-encoded and the capabilities sorted
lexicographically. -/
theorem computeKey_matches_spec (input : Policy.PolicyInput) :
    Policy.ComputeKey input = Policy.specCacheKey input := rfl

/-- The cache key only reads the agent id, the tool, and the sorted
capabilities. -/
theorem computeKey_congr {i1 i2 : Policy.PolicyInput}
    (hid : i1.agent.id = i2.agent.id) (htool : i1.request.tool = i2.request.tool)
    (hcaps : i1.agent.capabilities.Perm i2.agent.capabilities) :
    Policy.ComputeKey i1 = Policy.ComputeKey i2 := by
  unfold Policy.ComputeKey
  rw [hid, htool, sortStrings_perm_eq hcaps]

/-- Claim C5: with the engine enabled, its cache enabled and a positive
TTL, evaluating the same input twice with no intervening data
replacement or invalidation yields equal decisions, and the second
result is a cache hit. -/
theorem evaluate_twice_cache_hit
    (opa : Policy.PolicyInput → Except String (Option Policy.Decision))
    (st : Policy.EngineState) (t : Nat) (input : Policy.PolicyInput)
    (hen : st.enabled = true) (hc : st.cache.enabled = true)
    (httl : 0 < st.cache.ttl) :
    (match Policy.engineEvaluate opa st t input with
     | .ok (r1, st1) =>
       match Policy.engineEvaluate opa st1 t input with
       | .ok (r2, _) => r2.decision = r1.decision ∧ r2.cacheHit = true
       | .error _ => True
     | .error _ => True) := by
  have hlt : t < t + st.cache.ttl := Nat.lt_add_of_pos_right httl
  cases hget : Policy.cacheGet st.cache t (Policy.ComputeKey input) with
  | some v =>
    obtain ⟨d, tier⟩ := v
    simp [Policy.engineEvaluate, hen, hget]
  | none =>
    cases hev : Policy.evaluatePolicy opa input with
    | error e => simp [Policy.engineEvaluate, hen, hget, hev]
    | ok d =>
      simp only [Policy.engineEvaluate, hen, hget, hev, Policy.cacheSet, hc]
      simp [Policy.cacheGet, List.lookup, hlt]

/-- The policy input used by the C5 witness. -/
def w5input : Policy.PolicyInput :=
  { agent := ⟨"agent-a", "Agent A", ["read:files"], "", "", []⟩
    request := ⟨"tools/call", "read_file", [], ""⟩
    session := ⟨"sess-1", 1, 0, 0, 0⟩
    identity := ⟨false, "", "", 0, false⟩
    context := ⟨0, "", "", ""⟩ }

/-- The engine state used by the C5 witness: enabled, enforce mode,
enabled cache with 300-second TTL. -/
def w5eng : Policy.EngineState := ⟨true, "enforce", ⟨true, 300, 10000, []⟩⟩

/-- The external query used by the C5 witness. -/
def w5opa : Policy.PolicyInput → Except String (Option Policy.Decision) :=
  fun _ => .ok (some ⟨true, [], "read_allowed", []⟩)

/-- Witness for C5 at a concrete engine, query and input. -/
theorem evaluate_twice_cache_hit_witness :
    (match Policy.engineEvaluate w5opa w5eng 0 w5input with
     | .ok (r1, st1) =>
       match Policy.engineEvaluate w5opa st1 0 w5input with
       | .ok (r2, _) => r2.decision = r1.decision ∧ r2.cacheHit = true
       | .error _ => True
     | .error _ => True) :=
  evaluate_twice_cache_hit w5opa w5eng 0 w5input rfl rfl (by decide)

/-- Claim C7: two policy inputs with the same agent id, the same tool
and the same capability multiset (in any order) produce the same cache
key no matter how their other fields differ, so the second `Evaluate`
(within TTL, no intervening invalidation) returns the first input's
cached decision as a cache hit instead of a fresh evaluation. -/
theorem evaluate_cache_key_collision
    (opa : Policy.PolicyInput → Except String (Option Policy.Decision))
    (st : Policy.EngineState) (t : Nat) (i1 i2 : Policy.PolicyInput)
    (hid : i1.agent.id = i2.agent.id) (htool : i1.request.tool = i2.request.tool)
    (hcaps : i1.agent.capabilities.Perm i2.agent.capabilities)
    (hen : st.enabled = true) (hc : st.cache.enabled = true)
    (httl : 0 < st.cache.ttl) :
    Policy.ComputeKey i1 = Policy.ComputeKey i2 ∧
    (match Policy.engineEvaluate opa st t i1 with
     | .ok (r1, st1) =>
       match Policy.engineEvaluate opa st1 t i2 with
       | .ok (r2, _) => r2.cacheHit = true ∧ r2.decision = r1.decision
       | .error _ => True
     | .error _ => True) := by
  have hkey : Policy.ComputeKey i1 = Policy.ComputeKey i2 :=
    computeKey_congr hid htool hcaps
  refine ⟨hkey, ?_⟩
  have hlt : t < t + st.cache.ttl := Nat.lt_add_of_pos_right httl
  cases hget : Policy.cacheGet st.cache t (Policy.ComputeKey i1) with
  | some v =>
    obtain ⟨d, tier⟩ := v
    simp only [Policy.engineEvaluate, hen, hget, ← hkey]
    simp [hget, hen]
  | none =>
    cases hev : Policy.evaluatePolicy opa i1 with
    | error e => simp [Policy.engineEvaluate, hen, hget, hev]
    | ok d =>
      simp only [Policy.engineEvaluate, hen, hget, hev, ← hkey, Policy.cacheSet, hc]
      simp [Policy.cacheGet, List.lookup, hlt]

/-- First policy input of the C7 witness. -/
def w7i1 : Policy.PolicyInput :=
  { agent := ⟨"agent-a", "Agent A", ["read:files", "write:files"], "m1", "p1", []⟩
    request := ⟨"tools/call", "read_file", [("path", "/a")], ""⟩
    session := ⟨"sess-1", 1, 0, 0, 0⟩
    identity := ⟨false, "", "", 0, false⟩
    context := ⟨0, "10.0.0.1", "prod", ""⟩ }

/-- Second policy input of the C7 witness: same agent id and tool,
capabilities permuted, every other field different. -/
def w7i2 : Policy.PolicyInput :=
  { agent := ⟨"agent-a", "Other Name", ["write:files", "read:files"], "m2", "p2", ["t"]⟩
    request := ⟨"resources/read", "read_file", [("path", "/b")], "intent"⟩
    session := ⟨"sess-2", 9, 5, 3, 4⟩
    identity := ⟨true, "did:x", "ed25519", 7, true⟩
    context := ⟨99, "10.0.0.2", "dev", "eu"⟩ }

/-- Witness for C7 at two concrete inputs differing everywhere except
agent id, tool and capability multiset. -/
theorem evaluate_cache_key_collision_witness :
    Policy.ComputeKey w7i1 = Policy.ComputeKey w7i2 ∧
    (match Policy.engineEvaluate w5opa w5eng 0 w7i1 with
     | .ok (r1, st1) =>
       match Policy.engineEvaluate w5opa st1 0 w7i2 with
       | .ok (r2, _) => r2.cacheHit = true ∧ r2.decision = r1.decision
       | .error _ => True
     | .error _ => True) :=
  evaluate_cache_key_collision w5opa w5eng 0 w7i1 w7i2 rfl rfl (by decide) rfl rfl
    (by decide)

/-! ## Session manager (internal/session) -/

namespace Session

/-- Manager state.  `inMap` holds the ids present in the `sync.Map`;
`closed` records which session objects (which outlive their map entry)
have had `Close` called; `activeCount` mirrors the gauge.  Map keys
are unique, so `inMap` is used with whole-key erasure. -/
structure MgrState where
  inMap : List String
  closed : List String
  activeCount : Int
deriving DecidableEq, Repr

/-- `Session.IsClosed`: the one-shot `Done` channel has been closed. -/
def isClosed (st : MgrState) (id : String) : Bool := decide (id ∈ st.closed)

/-- `Manager.Delete`: `LoadAndDelete`; when the id was loaded, close
the session object and decrement the gauge, otherwise do nothing. -/
def mgrDelete (st : MgrState) (id : String) : MgrState :=
  if id ∈ st.inMap then
    { inMap := st.inMap.filter (fun x => x ≠ id)
      closed := if id ∈ st.closed then st.closed else id :: st.closed
      activeCount := st.activeCount - 1 }
  else st

/-- `Manager.Get`: a session is returned only when present and not
closed; a closed entry is lazily deleted. -/
def mgrGet (st : MgrState) (id : String) : Option String × MgrState :=
  if id ∈ st.inMap then
    if isClosed st id then (none, mgrDelete st id) else (some id, st)
  else (none, st)

/-- `n` successive `Delete` calls on the same id. -/
def iterDelete : Nat → MgrState → String → MgrState
  | 0, st, _ => st
  | n + 1, st, id => iterDelete n (mgrDelete st id) id

/-- After a delete the id is gone from the map. -/
theorem delete_removes (st : MgrState) (id : String) :
    id ∉ (mgrDelete st id).inMap := by
  unfold mgrDelete
  by_cases h : id ∈ st.inMap
  · simp [h, List.mem_filter]
  · simp [h]

/-- Deleting an absent id is a no-op. -/
theorem delete_absent (st : MgrState) (id : String)
    (h : id ∉ st.inMap) : mgrDelete st id = st := by
  simp [mgrDelete, h]

end Session

/-! ## Upstream client (the `upstream` package) -/

namespace Upstream

/-- A decoded JSON-RPC id used as the pending-table key (`interface`
values in Go; `null` is a legal key). -/
inductive JKey where
  | null
  | str (s : String)
  | num (n : Int)
deriving DecidableEq, Repr

/-- Upstream client state: connection flag, discovered message URL and
the pending-response table.  Response channels are numbered by
creation order (`nextSlot`). -/
structure ClientState where
  connected : Bool
  messageURL : String
  pending : List (JKey × Nat)
  nextSlot : Nat
deriving DecidableEq, Repr

/-- The registration phase of `Client.Send`: check connectivity and
the message URL, then store a fresh response channel under the
request's id.  The Go assignment `c.pending[requestID] = respChan`
replaces any existing entry unconditionally. -/
def sendRegister (st : ClientState) (id : JKey) : Except String ClientState :=
  if ¬ st.connected then .error "not connected to upstream"
  else if st.messageURL = "" then .error "upstream message URL not yet received"
  else .ok { st with
              pending := (id, st.nextSlot) :: st.pending.filter (fun p => p.1 ≠ id)
              nextSlot := st.nextSlot + 1 }

end Upstream

/-- A client state with a pending request under id `1`. -/
def w4st : Upstream.ClientState :=
  ⟨true, "http://up/message", [(.num 1, 0)], 1⟩

/-- Claim C4 (code bug): the spec requires id collisions to be
rejected at registration time, but `Client.Send` has no collision
check: registering id `1` while slot `0` is still pending succeeds and
silently replaces the existing slot — the pending table afterwards
maps id `1` to the new slot `1` and the first waiter's channel is
orphaned. -/
theorem send_overwrites_pending_slot :
    Upstream.sendRegister w4st (.num 1) =
        .ok ⟨true, "http://up/message", [(.num 1, 1)], 2⟩
      ∧ (Upstream.sendRegister w4st (.num 1)).isOk = true :=
  ⟨rfl, rfl⟩

/-! ## Session manager theorems -/

/-- Claim C9: deleting a session removes it (`Get` then misses), any
positive number of deletes leaves the session closed, `Delete` is
idempotent, and `active_count` is decremented exactly once per session
no matter how many deletes are issued. -/
theorem session_delete_spec (st : Session.MgrState) (id : String)
    (hpresent : id ∈ st.inMap) :
    (Session.mgrGet (Session.mgrDelete st id) id).1 = none ∧
    Session.mgrDelete (Session.mgrDelete st id) id = Session.mgrDelete st id ∧
    (∀ k : Nat,
      Session.isClosed (Session.iterDelete (k + 1) st id) id = true ∧
      (Session.iterDelete (k + 1) st id).activeCount = st.activeCount - 1) := by
  have hrm := Session.delete_removes st id
  have hidem : Session.mgrDelete (Session.mgrDelete st id) id = Session.mgrDelete st id :=
    Session.delete_absent _ id hrm
  refine ⟨?_, hidem, ?_⟩
  · unfold Session.mgrGet
    simp [hrm]
  · have hstable : ∀ k : Nat,
        Session.iterDelete k (Session.mgrDelete st id) id = Session.mgrDelete st id := by
      intro k
      induction k with
      | zero => rfl
      | succ n ih =>
        show Session.iterDelete n (Session.mgrDelete (Session.mgrDelete st id) id) id = _
        rw [hidem, ih]
    intro k
    have hiter : Session.iterDelete (k + 1) st id = Session.mgrDelete st id := hstable k
    constructor
    · rw [hiter]
      unfold Session.isClosed Session.mgrDelete
      simp only [hpresent, if_true]
      by_cases h : id ∈ st.closed
      · simp [h]
      · simp [h]
    · rw [hiter]
      unfold Session.mgrDelete
      simp [hpresent]

/-- A manager state with one live session. -/
def w9st : Session.MgrState := ⟨["sess_1"], [], 1⟩

/-- Witness for C9 at a one-session manager, with the delete count
instantiated at two successive deletes. -/
theorem session_delete_spec_witness :
    (Session.mgrGet (Session.mgrDelete w9st "sess_1") "sess_1").1 = none ∧
    Session.mgrDelete (Session.mgrDelete w9st "sess_1") "sess_1"
        = Session.mgrDelete w9st "sess_1" ∧
    Session.isClosed (Session.iterDelete 2 w9st "sess_1") "sess_1" = true ∧
    (Session.iterDelete 2 w9st "sess_1").activeCount = w9st.activeCount - 1 := by
  have h := session_delete_spec w9st "sess_1" (by simp [w9st])
  exact ⟨h.1, h.2.1, (h.2.2 1).1, (h.2.2 1).2⟩

/-! ## JSON validity (encoding/json.Valid, called by the SSE handler)

A fueled recursive-descent checker for the RFC 8259 grammar, matching
the Go standard library's `json.Valid` state machine: optional
surrounding whitespace, one value, strict number syntax (no leading
zeros), string escapes, nested objects and arrays.  The fuel is a
linear overapproximation of the recursion depth; every recursive call
consumes fuel and the input shrinks alongside it. -/

namespace JsonV

def isWsChar (c : Char) : Bool := c = ' ' || c = '\t' || c = '\n' || c = '\r'

def skipWs : List Char → List Char
  | [] => []
  | c :: rest => if isWsChar c then skipWs rest else c :: rest

def isDig (c : Char) : Bool := '0' ≤ c && c ≤ '9'

def isHexDig (c : Char) : Bool :=
  isDig c || ('a' ≤ c && c ≤ 'f') || ('A' ≤ c && c ≤ 'F')

def dropDigits (s : List Char) : List Char := s.dropWhile isDig

/-- The exponent part of a number (may be absent). -/
def numExp : List Char → Option (List Char)
  | [] => some []
  | c :: rest =>
    if c = 'e' || c = 'E' then
      let r2 := match rest with
        | s :: r3 => if s = '+' || s = '-' then r3 else s :: r3
        | [] => []
      match r2 with
      | c2 :: r3 => if isDig c2 then some (dropDigits r3) else none
      | [] => none
    else some (c :: rest)

/-- The fraction part of a number (may be absent). -/
def numFrac : List Char → Option (List Char)
  | '.' :: rest =>
    (match rest with
     | c :: r2 => if isDig c then numExp (dropDigits r2) else none
     | [] => none)
  | s => numExp s

/-- A JSON number: optional minus, `0` or a nonzero digit run, then
fraction and exponent. -/
def parseNumber (s : List Char) : Option (List Char) :=
  let s1 := match s with
    | '-' :: rest => rest
    | _ => s
  match s1 with
  | [] => none
  | c :: rest =>
    if c = '0' then numFrac rest
    else if isDig c then numFrac (dropDigits rest)
    else none

/-- The body of a JSON string after the opening quote: plain
characters above `0x1F`, the simple escapes and `\uXXXX`. -/
def parseStringBody : Nat → List Char → Option (List Char)
  | 0, _ => none
  | _, [] => none
  | fuel + 1, c :: rest =>
    if c = '"' then some rest
    else if c = '\\' then
      match rest with
      | [] => none
      | e :: r2 =>
        if e = '"' || e = '\\' || e = '/' || e = 'b' || e = 'f'
            || e = 'n' || e = 'r' || e = 't' then
          parseStringBody fuel r2
        else if e = 'u' then
          match r2 with
          | h1 :: h2 :: h3 :: h4 :: r3 =>
            if isHexDig h1 && isHexDig h2 && isHexDig h3 && isHexDig h4 then
              parseStringBody fuel r3
            else none
          | _ => none
        else none
    else if c.toNat < 32 then none
    else parseStringBody fuel rest

/-- Match a literal tail (`rue`, `alse`, `ull`). -/
def afterLit : List Char → List Char → Option (List Char)
  | [], s => some s
  | c :: cs, d :: ds => if d = c then afterLit cs ds else none
  | _ :: _, [] => none

/-- The grammar driver.  Modes: 0 = value, 3 = object body after the
opening brace, 1 = object members, 4 = array body after the opening
bracket, 2 = array elements. -/
def jsonRun : Nat → Nat → List Char → Option (List Char)
  | 0, _, _ => none
  | fuel + 1, mode, s =>
    if mode = 0 then
      match s with
      | [] => none
      | c :: rest =>
        if c = '\x7b' then jsonRun fuel 3 (skipWs rest)
        else if c = '[' then jsonRun fuel 4 (skipWs rest)
        else if c = '"' then parseStringBody (rest.length + 1) rest
        else if c = 't' then afterLit ['r', 'u', 'e'] rest
        else if c = 'f' then afterLit ['a', 'l', 's', 'e'] rest
        else if c = 'n' then afterLit ['u', 'l', 'l'] rest
        else parseNumber (c :: rest)
    else if mode = 3 then
      match s with
      | '\x7d' :: r => some r
      | _ => jsonRun fuel 1 s
    else if mode = 1 then
      match s with
      | '"' :: rest =>
        (match parseStringBody (rest.length + 1) rest with
         | some r1 =>
           (match skipWs r1 with
            | ':' :: r2 =>
              (match jsonRun fuel 0 (skipWs r2) with
               | some r3 =>
                 (match skipWs r3 with
                  | ',' :: r4 => jsonRun fuel 1 (skipWs r4)
                  | '\x7d' :: r4 => some r4
                  | _ => none)
               | none => none)
            | _ => none)
         | none => none)
      | _ => none
    else if mode = 4 then
      match s with
      | ']' :: r => some r
      | _ => jsonRun fuel 2 s
    else
      match jsonRun fuel 0 s with
      | some r1 =>
        (match skipWs r1 with
         | ',' :: r2 => jsonRun fuel 2 (skipWs r2)
         | ']' :: r2 => some r2
         | _ => none)
      | none => none

/-- `json.Valid`: whitespace, one value, trailing whitespace, end. -/
def jsonValid (s : List Char) : Bool :=
  match jsonRun (8 * s.length + 8) 0 (skipWs s) with
  | some rest => (skipWs rest).isEmpty
  | none => false

end JsonV

/-! ## SSE message endpoint (Handler.HandleMessage) -/

/-- The body limit: `io.LimitReader(r.Body, 1*1024*1024)`. -/
def MiB : Nat := 1048576

/-- Outcome of one `POST /message`: an error reply with its HTTP
status and JSON-RPC code, or HTTP 202 with the bytes handed to the
message handler. -/
inductive MsgOutcome where
  | httpError (status : Nat) (code : Int) (message : String)
  | accepted (dispatched : List Char)
deriving DecidableEq, Repr

/-- `Handler.HandleMessage`: missing `sessionId` ⇒ 400/−32600, unknown
session ⇒ 404/−32600; the body is read through a 1 MiB `LimitReader`
(silently truncating anything longer), validated as JSON
(failure ⇒ 400/−32700) and dispatched. -/
def handleMessage (sessionIdPresent sessionFound : Bool) (body : List Char) :
    MsgOutcome :=
  if ¬ sessionIdPresent then
    .httpError 400 CodeInvalidRequest "Missing sessionId parameter"
  else if ¬ sessionFound then
    .httpError 404 CodeInvalidRequest "Session not found or expired"
  else
    let body1 := body.take MiB
    if ¬ JsonV.jsonValid body1 then .httpError 400 CodeParseError "Invalid JSON"
    else .accepted body1

/-- A run of `n ≥ 1` digit-`1` characters is valid JSON (a number). -/
theorem jsonValid_ones (n : Nat) (h : 0 < n) :
    JsonV.jsonValid (List.replicate n '1') = true := by
  obtain ⟨m, rfl⟩ : ∃ m, n = m + 1 := ⟨n - 1, by omega⟩
  have hfuel : 8 * (List.replicate (m + 1) '1').length + 8 = (8 * m + 15) + 1 := by
    simp [List.length_replicate]
    ring
  unfold JsonV.jsonValid
  rw [hfuel, List.replicate_succ]
  simp [JsonV.skipWs, JsonV.isWsChar, JsonV.jsonRun, JsonV.parseNumber,
    JsonV.dropDigits, List.dropWhile_replicate, JsonV.isDig, JsonV.numFrac,
    JsonV.numExp]

/-- Claim C3 counterexample: a POST body of 1 MiB + 1 bytes, all the
digit `1`, is not rejected with −32700 — the `LimitReader` silently
truncates it to its first 1 MiB, which is still valid JSON, so the
truncated payload is accepted and dispatched. -/
theorem oversized_body_not_rejected :
    handleMessage true true (List.replicate (MiB + 1) '1') =
      .accepted (List.replicate MiB '1') := by
  have hval : JsonV.jsonValid (List.replicate MiB '1') = true :=
    jsonValid_ones MiB (by decide)
  have hmin : min MiB (MiB + 1) = MiB := by omega
  simp [handleMessage, List.take_replicate, hmin, hval]

/-- Claim C3 as amended: a body of at most 1 MiB of valid JSON is
accepted and dispatched unchanged; and in general the handler truncates
the body to its first 1 MiB and rejects with −32700 exactly when that
truncated prefix is not valid JSON, accepting (and dispatching) the
truncated prefix otherwise. -/
theorem message_body_truncated_at_1MiB (body : List Char) :
    (body.length ≤ MiB → JsonV.jsonValid body = true →
      handleMessage true true body = .accepted body) ∧
    handleMessage true true body =
      (if JsonV.jsonValid (body.take MiB) then .accepted (body.take MiB)
       else .httpError 400 CodeParseError "Invalid JSON") := by
  constructor
  · intro h1 h2
    unfold handleMessage
    rw [List.take_of_length_le h1]
    simp [h2]
  · unfold handleMessage
    cases hv : JsonV.jsonValid (body.take MiB) with
    | true => simp [hv]
    | false => simp [hv]

/-- Witness for the amended C3 at a concrete 1 MiB body of digits. -/
theorem message_body_truncated_at_1MiB_witness :
    handleMessage true true (List.replicate MiB '1') =
      .accepted (List.replicate MiB '1') :=
  (message_body_truncated_at_1MiB (List.replicate MiB '1')).1
    (by simp [List.length_replicate]) (jsonValid_ones MiB (by decide))

end MCP
